import Mathlib

/-!
Verification of the defaulted-record factory of
`intro-to-k-means-clustering` (notebook `namedtuple-expert-python.ipynb`).

The notebook's only reusable executable artifact is

  def namedtuple_defaults(typename, field_names, defaults):
      nt = namedtuple(typename, field_names)
      nt.__new__.__defaults__ = defaults
      return nt

This file shallowly embeds that function together with the CPython
semantics it relies on: `collections.namedtuple` (normalization of the
`field_names` argument, identifier/keyword/underscore/duplicate
validation), assignment to a function's `__defaults__` attribute (which
requires a tuple), and the binding of positional and keyword arguments
at instance construction (right-aligned defaults).  Python values are
abstracted by a type parameter `α`; Python strings are Lean `String`s
handled at the level of their character lists.
-/

namespace NTDefaults

/-- Equality of `Except` results is decidable when both component types
have decidable equality; used to evaluate the factory on concrete
inputs. -/
instance {ε σ : Type} [DecidableEq ε] [DecidableEq σ] : DecidableEq (Except ε σ) :=
  fun a b =>
    match a, b with
    | .error e, .error f =>
      if h : e = f then isTrue (congrArg Except.error h)
      else isFalse fun hc => h (Except.error.inj hc)
    | .ok v, .ok w =>
      if h : v = w then isTrue (congrArg Except.ok h)
      else isFalse fun hc => h (Except.ok.inj hc)
    | .error _, .ok _ => isFalse fun hc => Except.noConfusion hc
    | .ok _, .error _ => isFalse fun hc => Except.noConfusion hc

/-- Python errors raised by the machinery the notebook code uses.  Each
constructor corresponds to one distinct CPython error site: the Python
exception class is part of the constructor name, the payload is the
information the CPython message carries. -/
inductive PyErr where
  | valueErrorNotIdentifier (offender : String)
  | valueErrorKeyword (offender : String)
  | valueErrorUnderscore (offender : String)
  | valueErrorDuplicate (offender : String)
  | typeErrorDefaultsNotTuple
  | typeErrorUnexpectedKeyword (kw : String)
  | typeErrorMultipleValues (kw : String)
  | typeErrorTooManyPositional (given maxAllowed : Nat)
  | typeErrorMissingRequired (missing : List String)
  | attributeErrorNoField (f : String)
  | attributeErrorSet
deriving DecidableEq

/-- The `field_names` argument of `namedtuple`: either a single string
(split on whitespace after commas are replaced by spaces) or a sequence
of name strings. -/
inductive FieldNames where
  | str (s : String)
  | seq (l : List String)
deriving DecidableEq

/-- A Python sequence passed as the `defaults` argument; the runtime
kind matters because `__defaults__` assignment only accepts tuples. -/
inductive PySeq (α : Type) where
  | tuple (l : List α)
  | list (l : List α)
deriving DecidableEq

/-- Splitting a character list on runs of whitespace, dropping empty
pieces: the semantics of Python `str.split()` with no separator.  The
accumulator holds the current word reversed. -/
def pySplitWsAux : List Char → List Char → List (List Char)
  | [], acc => if acc = [] then [] else [acc.reverse]
  | c :: cs, acc =>
    if c.isWhitespace then
      if acc = [] then pySplitWsAux cs [] else acc.reverse :: pySplitWsAux cs []
    else
      pySplitWsAux cs (c :: acc)

/-- Python `s.replace(',', ' ').split()`: commas become spaces (a
single-character replace is a character map), then split on whitespace. -/
def pyReplaceCommaSplit (s : String) : List String :=
  (pySplitWsAux (s.data.map fun c => if c = ',' then ' ' else c) []).map
    fun cs => String.mk cs

/-- Normalization performed at the top of `collections.namedtuple`:
`if isinstance(field_names, str): field_names = field_names.replace(',', ' ').split()`
followed by `list(map(str, field_names))` (the identity on strings). -/
def normalizeFieldNames : FieldNames → List String
  | .str s => pyReplaceCommaSplit s
  | .seq l => l

/-- ASCII model of Python `str.isidentifier()`: nonempty, first
character a letter or underscore, the rest letters, digits or
underscores. -/
def isPyIdentifier (s : String) : Bool :=
  match s.data with
  | [] => false
  | c :: cs => (c.isAlpha || c = '_') && cs.all fun d => d.isAlphanum || d = '_'

/-- The Python keywords rejected by `namedtuple`'s `_iskeyword` check. -/
def pyKeywords : List String :=
  ["False", "None", "True", "and", "as", "assert", "async", "await",
   "break", "class", "continue", "def", "del", "elif", "else", "except",
   "finally", "for", "if", "import", "in", "is", "lambda", "nonlocal",
   "not", "or", "pass", "raise", "return", "try", "while", "with", "yield"]

/-- First failure of `namedtuple`'s per-name loop over
`[typename] + field_names`: each name must be an identifier and not a
keyword. -/
def checkIdentKw : List String → Option PyErr
  | [] => none
  | n :: rest =>
    if ¬ isPyIdentifier n then some (.valueErrorNotIdentifier n)
    else if pyKeywords.contains n then some (.valueErrorKeyword n)
    else checkIdentKw rest

/-- Python `name.startswith('_')`: the first character is an
underscore. -/
def startsWithUnderscore (s : String) : Bool :=
  match s.data with
  | [] => false
  | c :: _ => c = '_'

/-- First failure of `namedtuple`'s second loop over the field names
with a `seen` set: a leading underscore or a duplicate name is rejected
(`rename=False`, the notebook's call shape). -/
def checkFieldSeq : List String → List String → Option PyErr
  | [], _ => none
  | n :: rest, seen =>
    if startsWithUnderscore n then some (.valueErrorUnderscore n)
    else if seen.contains n then some (.valueErrorDuplicate n)
    else checkFieldSeq rest (n :: seen)

/-- A produced record type: the display name, the ordered field names,
and the contents of `__new__.__defaults__`. -/
structure NTType (α : Type) where
  typename : String
  fields : List String
  defaults : List α
deriving DecidableEq

/-- `collections.namedtuple(typename, field_names)`: normalize the
field names, validate, and produce the type; `__defaults__` starts as
the empty tuple (no optional arguments). -/
def pyNamedtuple (α : Type) (typename : String) (field_names : FieldNames) :
    Except PyErr (NTType α) :=
  let fields := normalizeFieldNames field_names
  match checkIdentKw (typename :: fields) with
  | some e => .error e
  | none =>
    match checkFieldSeq fields [] with
    | some e => .error e
    | none => .ok { typename := typename, fields := fields, defaults := [] }

/-- `nt.__new__.__defaults__ = defaults`: CPython requires the assigned
object to be a tuple and performs no length check against the
parameter count. -/
def setNewDefaults {α : Type} (nt : NTType α) (defaults : PySeq α) :
    Except PyErr (NTType α) :=
  match defaults with
  | .tuple l => .ok { nt with defaults := l }
  | .list _ => .error .typeErrorDefaultsNotTuple

/-- The notebook's `namedtuple_defaults(typename, field_names, defaults)`. -/
def namedtuple_defaults {α : Type} (typename : String)
    (field_names : FieldNames) (defaults : PySeq α) :
    Except PyErr (NTType α) := do
  let nt ← pyNamedtuple α typename field_names
  setNewDefaults nt defaults

/-- The value bound to a keyword argument named `k`, if any. -/
def lookupKw {α : Type} (kwargs : List (String × α)) (k : String) : Option α :=
  (kwargs.find? fun p => p.1 == k).map Prod.snd

/-- First keyword argument CPython rejects with a multiple-values
error: it names a parameter already filled positionally, or repeats an
earlier keyword. -/
def firstMultipleKw {α : Type} (fields : List String) (nargs : Nat) :
    List (String × α) → List String → Option String
  | [], _ => none
  | (k, _) :: rest, seen =>
    if fields.findIdx (fun f => f == k) < nargs || seen.contains k then some k
    else firstMultipleKw fields nargs rest (k :: seen)

/-- The value CPython binds to parameter `i` of `__new__`: the
positional argument at `i` when given, else the keyword argument named
`fields[i]`, else the right-aligned entry of `__defaults__`, else
nothing (a missing required argument). -/
def fillField {α : Type} (nt : NTType α) (args : List α)
    (kwargs : List (String × α)) (i : Nat) : Option α :=
  match args[i]? with
  | some v => some v
  | none =>
    match lookupKw kwargs (nt.fields.getD i "") with
    | some v => some v
    | none =>
      if nt.fields.length ≤ i + nt.defaults.length then
        nt.defaults[i + nt.defaults.length - nt.fields.length]?
      else none

/-- The field names left unbound by `fillField`, in declaration order:
the names CPython lists in the missing-arguments message. -/
def missingNames {α : Type} (nt : NTType α) (args : List α)
    (kwargs : List (String × α)) : List String :=
  ((List.range nt.fields.length).filter
      fun i => (fillField nt args kwargs i).isNone).map
    fun i => nt.fields.getD i ""

/-- Calling the produced type, `TypeName(*args, **kwargs)`: CPython
argument binding for `__new__` under the bound defaults.  Keyword
arguments are checked first (unexpected name, multiple values), then
the positional count, then every parameter is filled, missing ones
raising the missing-required-arguments error.  The instance is its
ordered list of field values. -/
def construct {α : Type} (nt : NTType α) (args : List α)
    (kwargs : List (String × α)) : Except PyErr (List α) :=
  match kwargs.find? (fun p => !nt.fields.contains p.1) with
  | some p => .error (.typeErrorUnexpectedKeyword p.1)
  | none =>
    match firstMultipleKw nt.fields args.length kwargs [] with
    | some k => .error (.typeErrorMultipleValues k)
    | none =>
      if nt.fields.length < args.length then
        .error (.typeErrorTooManyPositional args.length nt.fields.length)
      else
        let filled := (List.range nt.fields.length).map (fillField nt args kwargs)
        if filled.all Option.isSome then .ok filled.reduceOption
        else .error (.typeErrorMissingRequired (missingNames nt args kwargs))

/-- Reading `inst.f`: the instance component at the position of field
`f`; a name that is not a field raises AttributeError. -/
def getattrByName {α : Type} (nt : NTType α) (inst : List α) (f : String) :
    Except PyErr α :=
  match nt.fields.findIdx? (fun g => g == f) with
  | none => .error (.attributeErrorNoField f)
  | some i =>
    match inst[i]? with
    | some v => .ok v
    | none => .error (.attributeErrorNoField f)

/-- Writing `inst.f = v`: namedtuple instances are tuples with
`__slots__ = ()`, so CPython rejects every attribute assignment with
AttributeError; no modified instance is ever produced. -/
def setattrByName {α : Type} (nt : NTType α) (inst : List α) (f : String)
    (v : α) : Except PyErr (List α) :=
  match nt, inst, f, v with
  | _, _, _, _ => .error .attributeErrorSet

/-- Tuple equality (`__eq__` of the underlying tuple): equal lengths
and elementwise equal values. -/
def tupleEq {α : Type} [DecidableEq α] : List α → List α → Bool
  | [], [] => true
  | a :: as, b :: bs => decide (a = b) && tupleEq as bs
  | _, _ => false

/-- A type object at a heap address.  `namedtuple` executes a fresh
class template on every call, so each call allocates a new class
object; allocation is modelled by threading a counter giving the next
fresh address. -/
structure NTTypeObj (α : Type) where
  addr : Nat
  ty : NTType α
deriving DecidableEq

/-- `namedtuple_defaults` with allocation made explicit: the produced
type object lives at the next fresh address and the counter advances. -/
def namedtuple_defaults_alloc {α : Type} (next : Nat) (typename : String)
    (field_names : FieldNames) (defaults : PySeq α) :
    Except PyErr (NTTypeObj α × Nat) := do
  let nt ← namedtuple_defaults typename field_names defaults
  .ok (⟨next, nt⟩, next + 1)

/-! Lemmas about the embedding. -/

theorem reduceOption_map_some {α : Type} (l : List α) :
    (l.map some).reduceOption = l := by
  induction l with
  | nil => rfl
  | cons a l ih => simp [List.reduceOption_cons_of_some, ih]

theorem setNewDefaults_tuple {α : Type} (nt : NTType α) (ds : List α) :
    setNewDefaults nt (.tuple ds) = .ok { nt with defaults := ds } := rfl

theorem namedtuple_defaults_eq_bind {α : Type} (tn : String)
    (fn : FieldNames) (dfl : PySeq α) :
    namedtuple_defaults tn fn dfl =
      (pyNamedtuple α tn fn).bind fun nt => setNewDefaults nt dfl := rfl

theorem pyNamedtuple_ok {α : Type} {tn : String} {fn : FieldNames}
    {nt : NTType α} (h : pyNamedtuple α tn fn = .ok nt) :
    nt = ⟨tn, normalizeFieldNames fn, []⟩ ∧
      checkIdentKw (tn :: normalizeFieldNames fn) = none ∧
      checkFieldSeq (normalizeFieldNames fn) [] = none := by
  have h' : (match checkIdentKw (tn :: normalizeFieldNames fn) with
      | some e => (Except.error e : Except PyErr (NTType α))
      | none =>
        match checkFieldSeq (normalizeFieldNames fn) [] with
        | some e => Except.error e
        | none => Except.ok ⟨tn, normalizeFieldNames fn, []⟩) =
      Except.ok nt := h
  split at h'
  · exact absurd h' (by simp)
  · split at h'
    · exact absurd h' (by simp)
    · exact ⟨(Except.ok.inj h').symm, by assumption, by assumption⟩

theorem namedtuple_defaults_ok_tuple {α : Type} {tn : String}
    {fn : FieldNames} {ds : List α} {nt : NTType α}
    (h : namedtuple_defaults tn fn (.tuple ds) = .ok nt) :
    nt.typename = tn ∧ nt.fields = normalizeFieldNames fn ∧
      nt.defaults = ds ∧ checkFieldSeq nt.fields [] = none := by
  rw [namedtuple_defaults_eq_bind] at h
  cases hp : pyNamedtuple α tn fn with
  | error e => rw [hp] at h; exact absurd h (by simp [Except.bind])
  | ok nt0 =>
    rw [hp] at h
    have h' : setNewDefaults nt0 (PySeq.tuple ds) = Except.ok nt := h
    rw [setNewDefaults_tuple] at h'
    obtain ⟨h0, _, hseq⟩ := pyNamedtuple_ok hp
    have hnt : nt = { nt0 with defaults := ds } := (Except.ok.inj h').symm
    subst hnt; subst h0
    exact ⟨rfl, rfl, rfl, hseq⟩

theorem checkFieldSeq_none_nodup :
    ∀ (l seen : List String), checkFieldSeq l seen = none →
      l.Nodup ∧ ∀ x ∈ l, x ∉ seen := by
  intro l
  induction l with
  | nil => intro seen _; exact ⟨List.nodup_nil, by simp⟩
  | cons n rest ih =>
    intro seen h
    unfold checkFieldSeq at h
    split at h
    · exact absurd h (by simp)
    · split at h
      · exact absurd h (by simp)
      · obtain ⟨hnd, hout⟩ := ih (n :: seen) h
        have hn : ¬ seen.contains n = true := by assumption
        have hnotrest : n ∉ rest := fun hmem =>
          (hout n hmem) (List.mem_cons_self n seen)
        refine ⟨List.nodup_cons.mpr ⟨hnotrest, hnd⟩, ?_⟩
        intro x hx hxseen
        rcases List.mem_cons.mp hx with rfl | hxr
        · exact hn (List.elem_iff.mpr hxseen)
        · exact (hout x hxr) (List.mem_cons_of_mem n hxseen)

/-- A type returned by the factory has duplicate-free field names. -/
theorem factory_fields_nodup {α : Type} {tn : String} {fn : FieldNames}
    {ds : List α} {nt : NTType α}
    (h : namedtuple_defaults tn fn (.tuple ds) = .ok nt) :
    nt.fields.Nodup :=
  (checkFieldSeq_none_nodup nt.fields []
    (namedtuple_defaults_ok_tuple h).2.2.2).1

/-- `fillField` with no keyword arguments: the positional argument if
given, else the right-aligned default. -/
theorem fillField_no_kwargs {α : Type} (nt : NTType α) (args : List α)
    (i : Nat) :
    fillField nt args [] i =
      match args[i]? with
      | some v => some v
      | none =>
        if nt.fields.length ≤ i + nt.defaults.length then
          nt.defaults[i + nt.defaults.length - nt.fields.length]?
        else none := by
  unfold fillField
  cases args[i]? <;> rfl

/-- `construct` with no keyword arguments, reduced past the two
keyword checks (both vacuous on an empty keyword list). -/
theorem construct_no_kwargs {α : Type} (nt : NTType α) (args : List α) :
    construct nt args [] =
      if nt.fields.length < args.length then
        Except.error (PyErr.typeErrorTooManyPositional args.length
          nt.fields.length)
      else
        let filled := (List.range nt.fields.length).map (fillField nt args [])
        if filled.all Option.isSome then .ok filled.reduceOption
        else .error (.typeErrorMissingRequired (missingNames nt args [])) :=
  rfl

/-- With no keyword arguments, an omitted trailing parameter is filled
from the right-aligned defaults: binding `args` followed by `k` omitted
parameters yields `args` extended with the last `k` defaults. -/
theorem construct_positional {α : Type} (nt : NTType α) (args : List α)
    (k : Nat) (hk : k ≤ nt.defaults.length)
    (hlen : args.length + k = nt.fields.length) :
    construct nt args [] =
      .ok (args ++ nt.defaults.drop (nt.defaults.length - k)) := by
  have hfill : (List.range nt.fields.length).map (fillField nt args []) =
      (args ++ nt.defaults.drop (nt.defaults.length - k)).map some := by
    apply List.ext_getElem
    · simp only [List.length_map, List.length_range, List.length_append,
        List.length_drop]
      omega
    · intro i h1 h2
      rw [List.getElem_map, List.getElem_range, List.getElem_map]
      simp only [List.length_map, List.length_range] at h1
      simp only [List.length_map, List.length_append, List.length_drop] at h2
      by_cases hi : i < args.length
      · rw [fillField_no_kwargs, List.getElem?_eq_getElem hi,
          List.getElem_append_left hi]
      · push_neg at hi
        rw [fillField_no_kwargs, List.getElem?_eq_none_iff.mpr hi]
        show (if nt.fields.length ≤ i + nt.defaults.length then
            nt.defaults[i + nt.defaults.length - nt.fields.length]?
          else none) = _
        rw [if_pos (by omega)]
        rw [List.getElem_append_right hi, List.getElem_drop]
        rw [show i + nt.defaults.length - nt.fields.length =
          nt.defaults.length - k + (i - args.length) from by omega]
        have hb : nt.defaults.length - k + (i - args.length) <
            nt.defaults.length := by omega
        exact List.getElem?_eq_getElem hb
  have hall :
      ((args ++ nt.defaults.drop (nt.defaults.length - k)).map some).all
        Option.isSome = true := by
    rw [List.all_eq_true]
    intro x hx
    rcases List.mem_map.mp hx with ⟨y, _, rfl⟩
    rfl
  rw [construct_no_kwargs, if_neg (by omega)]
  simp only [hfill]
  rw [if_pos hall, reduceOption_map_some]

theorem eq_map_some_reduceOption {α : Type} :
    ∀ l : List (Option α), l.all Option.isSome = true →
      l = l.reduceOption.map some := by
  intro l
  induction l with
  | nil => intro _; rfl
  | cons a l ih =>
    intro h
    rw [List.all_cons, Bool.and_eq_true] at h
    cases a with
    | none => exact absurd h.1 (by simp)
    | some v => rw [List.reduceOption_cons_of_some, List.map_cons, ← ih h.2]

/-- Inversion of a successful construction: all parameters were filled
and the instance is the list of filled values. -/
theorem construct_ok_inv {α : Type} {nt : NTType α} {args : List α}
    {kwargs : List (String × α)} {inst : List α}
    (h : construct nt args kwargs = .ok inst) :
    ((List.range nt.fields.length).map (fillField nt args kwargs)).all
        Option.isSome = true ∧
      inst = ((List.range nt.fields.length).map
        (fillField nt args kwargs)).reduceOption := by
  unfold construct at h
  split at h
  · exact absurd h (by simp)
  · split at h
    · exact absurd h (by simp)
    · split at h
      · exact absurd h (by simp)
      · have h' : (if ((List.range nt.fields.length).map
              (fillField nt args kwargs)).all Option.isSome then
            Except.ok (((List.range nt.fields.length).map
              (fillField nt args kwargs)).reduceOption)
          else Except.error (PyErr.typeErrorMissingRequired
            (missingNames nt args kwargs))) = Except.ok inst := h
        split at h'
        · exact ⟨by assumption, (Except.ok.inj h').symm⟩
        · exact absurd h' (by simp)

/-- A successfully constructed instance has one value per field. -/
theorem construct_ok_length {α : Type} {nt : NTType α} {args : List α}
    {kwargs : List (String × α)} {inst : List α}
    (h : construct nt args kwargs = .ok inst) :
    inst.length = nt.fields.length := by
  obtain ⟨hall, hinst⟩ := construct_ok_inv h
  have h2 := congrArg List.length (eq_map_some_reduceOption _ hall)
  simp only [List.length_map, List.length_range] at h2
  rw [hinst, ← h2]

/-- The value at position `j` of a constructed instance is exactly the
value `fillField` bound to parameter `j`. -/
theorem construct_ok_getElem {α : Type} {nt : NTType α} {args : List α}
    {kwargs : List (String × α)} {inst : List α}
    (h : construct nt args kwargs = .ok inst) {j : Nat}
    (hj : j < nt.fields.length) :
    inst[j]? = fillField nt args kwargs j := by
  obtain ⟨hall, hinst⟩ := construct_ok_inv h
  have hmap : (List.range nt.fields.length).map (fillField nt args kwargs) =
      inst.map some := by
    rw [hinst]; exact eq_map_some_reduceOption _ hall
  have hj2 : j < inst.length := by rw [construct_ok_length h]; exact hj
  have h3 := congrArg (fun l => l[j]?) hmap
  simp only [List.getElem?_map] at h3
  rw [List.getElem?_range hj, List.getElem?_eq_getElem hj2] at h3
  simp only [Option.map_some'] at h3
  rw [List.getElem?_eq_getElem hj2]
  exact (Option.some.inj h3).symm

theorem tupleEq_eq_true_iff {α : Type} [DecidableEq α] :
    ∀ a b : List α, tupleEq a b = true ↔ a = b := by
  intro a
  induction a with
  | nil => intro b; cases b <;> simp [tupleEq]
  | cons x xs ih =>
    intro b
    cases b with
    | nil => simp [tupleEq]
    | cons y ys =>
      unfold tupleEq
      rw [Bool.and_eq_true, decide_eq_true_eq, ih]
      constructor
      · rintro ⟨rfl, rfl⟩; rfl
      · intro hxy
        injection hxy with h1 h2
        exact ⟨h1, h2⟩

theorem findIdx?_nodup_beq {l : List String} (hnd : l.Nodup) :
    ∀ (j : Nat) (hj : j < l.length) (s : Nat),
      List.findIdx? (fun g => g == l.get ⟨j, hj⟩) l s = some (s + j) := by
  induction l with
  | nil => intro j hj; exact absurd hj (by simp)
  | cons x xs ih =>
    intro j hj s
    rw [List.findIdx?_cons]
    cases j with
    | zero => rw [if_pos (by simp)]; rfl
    | succ j' =>
      have hx : x ∉ xs := (List.nodup_cons.mp hnd).1
      have hj' : j' < xs.length := by simpa using hj
      have hjx : (x :: xs).get ⟨j' + 1, hj⟩ = xs.get ⟨j', hj'⟩ := rfl
      rw [hjx]
      rw [if_neg ?hne]
      · rw [ih (List.nodup_cons.mp hnd).2 j' hj' (s + 1)]
        congr 1
        omega
      case hne =>
        simp only [beq_iff_eq]
        intro hc
        exact hx (by rw [hc]; exact xs.get_mem j' hj')

/-- Reading a field of a well-formed instance by the field's name
returns the instance component at that field's position. -/
theorem getattrByName_get {α : Type} {nt : NTType α} {inst : List α}
    (hnd : nt.fields.Nodup) (hlen : inst.length = nt.fields.length)
    {j : Nat} (hj : j < nt.fields.length) :
    getattrByName nt inst (nt.fields.get ⟨j, hj⟩) =
      .ok (inst.get ⟨j, by omega⟩) := by
  unfold getattrByName
  rw [findIdx?_nodup_beq hnd j hj 0]
  simp only [Nat.zero_add]
  show (match inst[j]? with
    | some v => Except.ok v
    | none => Except.error (PyErr.attributeErrorNoField (nt.fields.get ⟨j, hj⟩))) = _
  rw [List.getElem?_eq_getElem (by omega)]
  rfl

/-- The unexpected-keyword check passes when every keyword argument
names a declared field. -/
theorem find?_unexpected_none {α : Type} (nt : NTType α)
    (kwargs : List (String × α)) (hkw : ∀ p ∈ kwargs, p.1 ∈ nt.fields) :
    kwargs.find? (fun p => !nt.fields.contains p.1) = none := by
  rw [List.find?_eq_none]
  intro p hp
  simp [hkw p hp]

/-- The multiple-values check passes when keyword names are distinct,
none is positionally filled, and none was seen before. -/
theorem firstMultipleKw_none {α : Type} (fields : List String) (nargs : Nat) :
    ∀ (kwargs : List (String × α)) (seen : List String),
      (∀ p ∈ kwargs, nargs ≤ fields.findIdx (fun f => f == p.1)) →
      (kwargs.map Prod.fst).Nodup →
      (∀ p ∈ kwargs, p.1 ∉ seen) →
      firstMultipleKw fields nargs kwargs seen = none := by
  intro kwargs
  induction kwargs with
  | nil => intro seen _ _ _; rfl
  | cons q rest ih =>
    intro seen hidx hnd hseen
    obtain ⟨k, v⟩ := q
    have hnd' : (k :: rest.map Prod.fst).Nodup := by simpa using hnd
    unfold firstMultipleKw
    rw [if_neg ?hcond]
    · refine ih (k :: seen)
        (fun p hp => hidx p (List.mem_cons_of_mem _ hp))
        (by simpa using (List.nodup_cons.mp hnd').2) ?_
      intro p hp
      simp only [List.mem_cons]
      rintro (h1 | h2)
      · exact (List.nodup_cons.mp hnd').1
          (h1 ▸ List.mem_map_of_mem Prod.fst hp)
      · exact hseen p (List.mem_cons_of_mem _ hp) h2
    case hcond =>
      have h1 : nargs ≤ fields.findIdx (fun f => f == k) :=
        hidx (k, v) (List.mem_cons_self _ _)
      have h2 : k ∉ seen := hseen (k, v) (List.mem_cons_self _ _)
      simp only [Bool.or_eq_true, decide_eq_true_eq]
      rintro (hc | hc)
      · omega
      · exact h2 (List.elem_iff.mp hc)

/-- A parameter with no positional argument, no keyword argument and no
right-aligned default is left unfilled. -/
theorem fillField_eq_none {α : Type} (nt : NTType α) (args : List α)
    (kwargs : List (String × α)) (i : Nat)
    (hpos : args.length ≤ i)
    (hnk : ∀ p ∈ kwargs, ¬ (p.1 == nt.fields.getD i "") = true)
    (hnodef : i + nt.defaults.length < nt.fields.length) :
    fillField nt args kwargs i = none := by
  have hlk : lookupKw kwargs (nt.fields.getD i "") = none := by
    unfold lookupKw
    rw [List.find?_eq_none.mpr hnk]
    rfl
  unfold fillField
  rw [List.getElem?_eq_none_iff.mpr hpos]
  show (match lookupKw kwargs (nt.fields.getD i "") with
    | some v => some v
    | none =>
      if nt.fields.length ≤ i + nt.defaults.length then
        nt.defaults[i + nt.defaults.length - nt.fields.length]?
      else none) = none
  rw [hlk]
  show (if nt.fields.length ≤ i + nt.defaults.length then
      nt.defaults[i + nt.defaults.length - nt.fields.length]?
    else none) = none
  rw [if_neg (by omega)]

/-- `construct` reduced past passing keyword and arity checks. -/
theorem construct_checks_pass {α : Type} (nt : NTType α) (args : List α)
    (kwargs : List (String × α))
    (hfind : kwargs.find? (fun p => !nt.fields.contains p.1) = none)
    (hmv : firstMultipleKw nt.fields args.length kwargs [] = none)
    (hct : ¬ nt.fields.length < args.length) :
    construct nt args kwargs =
      if ((List.range nt.fields.length).map (fillField nt args kwargs)).all
          Option.isSome then
        .ok (((List.range nt.fields.length).map
          (fillField nt args kwargs)).reduceOption)
      else
        .error (.typeErrorMissingRequired (missingNames nt args kwargs)) := by
  unfold construct
  rw [hfind, hmv, if_neg hct]

/-- `fillField` with no positional arguments: keyword value or
right-aligned default. -/
theorem fillField_no_args {α : Type} (nt : NTType α)
    (kwargs : List (String × α)) (j : Nat) :
    fillField nt [] kwargs j =
      match lookupKw kwargs (nt.fields.getD j "") with
      | some v => some v
      | none =>
        if nt.fields.length ≤ j + nt.defaults.length then
          nt.defaults[j + nt.defaults.length - nt.fields.length]?
        else none := rfl

theorem isAlpha_isAlphanum {c : Char} (h : c.isAlpha = true) :
    c.isAlphanum = true := by
  unfold Char.isAlphanum
  rw [h]
  rfl

theorem ident_char_not_ws {c : Char} (h : (c.isAlphanum || c = '_') = true) :
    c.isWhitespace = false := by
  by_contra hws
  rw [Bool.not_eq_false] at hws
  unfold Char.isWhitespace at hws
  simp only [Bool.or_eq_true, decide_eq_true_eq] at hws
  rcases hws with ((rfl | rfl) | rfl) | rfl <;> exact absurd h (by decide)

theorem ident_char_ne_comma {c : Char} (h : (c.isAlphanum || c = '_') = true) :
    c ≠ ',' := by
  rintro rfl
  exact absurd h (by decide)

/-- A valid identifier is nonempty and all its characters are letters,
digits or underscores. -/
theorem ident_chars {x : String} (h : isPyIdentifier x = true) :
    x.data ≠ [] ∧ ∀ c ∈ x.data, (c.isAlphanum || c = '_') = true := by
  cases hd : x.data with
  | nil =>
    have h' : False := by
      unfold isPyIdentifier at h
      rw [hd] at h
      exact absurd h (by simp)
    exact absurd h' (by simp)
  | cons c cs =>
    have h' : ((c.isAlpha || c = '_') &&
        cs.all fun d => d.isAlphanum || d = '_') = true := by
      unfold isPyIdentifier at h
      rw [hd] at h
      exact h
    rw [Bool.and_eq_true] at h'
    refine ⟨by simp, ?_⟩
    intro d hdm
    rcases List.mem_cons.mp hdm with rfl | hdm'
    · have h1 := h'.1
      rw [Bool.or_eq_true] at h1
      rcases h1 with h1 | h1
      · rw [isAlpha_isAlphanum h1]; rfl
      · rw [Bool.or_eq_true]; exact Or.inr h1
    · exact List.all_eq_true.mp h'.2 d hdm'

theorem pySplitWsAux_cons_nws (c : Char) (cs acc : List Char)
    (h : c.isWhitespace = false) :
    pySplitWsAux (c :: cs) acc = pySplitWsAux cs (c :: acc) := by
  simp only [pySplitWsAux]
  rw [if_neg (by simp [h])]

theorem pySplitWsAux_cons_ws_acc (c : Char) (cs acc : List Char)
    (hws : c.isWhitespace = true) (hacc : acc ≠ []) :
    pySplitWsAux (c :: cs) acc = acc.reverse :: pySplitWsAux cs [] := by
  simp only [pySplitWsAux]
  rw [if_pos hws, if_neg hacc]

theorem pySplitWsAux_nil_acc (acc : List Char) (h : acc ≠ []) :
    pySplitWsAux [] acc = [acc.reverse] := by
  unfold pySplitWsAux
  rw [if_neg h]

/-- Consuming a whitespace-free word accumulates it unchanged. -/
theorem pySplitWsAux_append_word :
    ∀ (w : List Char), (∀ c ∈ w, c.isWhitespace = false) →
      ∀ (s acc : List Char),
        pySplitWsAux (w ++ s) acc = pySplitWsAux s (w.reverse ++ acc) := by
  intro w
  induction w with
  | nil => intro _ s acc; rfl
  | cons c w' ih =>
    intro hw s acc
    rw [List.cons_append,
      pySplitWsAux_cons_nws c _ _ (hw c (List.mem_cons_self _ _)),
      ih (fun d hd => hw d (List.mem_cons_of_mem _ hd)) s (c :: acc)]
    congr 1
    simp [List.reverse_cons, List.append_assoc]

/-- Splitting whitespace-free words joined by single spaces recovers
exactly the words. -/
theorem pySplitWsAux_intercalate :
    ∀ l : List (List Char), (∀ w ∈ l, w ≠ []) →
      (∀ w ∈ l, ∀ c ∈ w, c.isWhitespace = false) →
      pySplitWsAux (List.intercalate [' '] l) [] = l := by
  intro l
  induction l with
  | nil => intro _ _; rfl
  | cons w ws ih =>
    intro hne hnw
    cases ws with
    | nil =>
      have hint : List.intercalate ([' '] : List Char) [w] = w := by
        have he : List.intercalate ([' '] : List Char) [w] = w ++ [] := rfl
        rw [he, List.append_nil]
      rw [hint]
      calc pySplitWsAux w [] = pySplitWsAux (w ++ []) [] := by
            rw [List.append_nil]
        _ = pySplitWsAux [] (w.reverse ++ []) :=
            pySplitWsAux_append_word w
              (hnw w (List.mem_cons_self _ _)) [] []
        _ = pySplitWsAux [] w.reverse := by rw [List.append_nil]
        _ = [w.reverse.reverse] :=
            pySplitWsAux_nil_acc _
              (by simp [hne w (List.mem_cons_self _ _)])
        _ = [w] := by rw [List.reverse_reverse]
    | cons w2 ws2 =>
      have hint : List.intercalate ([' '] : List Char) (w :: w2 :: ws2) =
          w ++ (' ' :: List.intercalate ([' '] : List Char) (w2 :: ws2)) := rfl
      rw [hint,
        pySplitWsAux_append_word w (hnw w (List.mem_cons_self _ _)) _ [],
        List.append_nil,
        pySplitWsAux_cons_ws_acc ' ' _ w.reverse (by decide)
          (by simp [hne w (List.mem_cons_self _ _)]),
        List.reverse_reverse,
        ih (fun x hx => hne x (List.mem_cons_of_mem _ hx))
          (fun x hx => hnw x (List.mem_cons_of_mem _ hx))]

theorem map_comma_id (s : List Char) (h : ∀ c ∈ s, c ≠ ',') :
    s.map (fun c => if c = ',' then ' ' else c) = s :=
  calc s.map (fun c => if c = ',' then ' ' else c) = s.map id :=
      List.map_congr_left fun c hc => if_neg (h c hc)
    _ = s := List.map_id s

theorem mem_intercalate_space :
    ∀ (l : List (List Char)) (c : Char), c ∈ List.intercalate [' '] l →
      c = ' ' ∨ ∃ w ∈ l, c ∈ w := by
  intro l
  induction l with
  | nil => intro c hc; exact absurd hc (List.not_mem_nil c)
  | cons w ws ih =>
    intro c hc
    cases ws with
    | nil =>
      have hint : List.intercalate ([' '] : List Char) [w] = w := by
        have he : List.intercalate ([' '] : List Char) [w] = w ++ [] := rfl
        rw [he, List.append_nil]
      rw [hint] at hc
      exact Or.inr ⟨w, List.mem_cons_self _ _, hc⟩
    | cons w2 ws2 =>
      have hint : List.intercalate ([' '] : List Char) (w :: w2 :: ws2) =
          w ++ (' ' :: List.intercalate ([' '] : List Char) (w2 :: ws2)) := rfl
      rw [hint] at hc
      rcases List.mem_append.mp hc with h1 | h1
      · exact Or.inr ⟨w, List.mem_cons_self _ _, h1⟩
      · rcases List.mem_cons.mp h1 with rfl | h2
        · exact Or.inl rfl
        · rcases ih c h2 with h3 | ⟨w', hw', hcw'⟩
          · exact Or.inl h3
          · exact Or.inr ⟨w', List.mem_cons_of_mem _ hw', hcw'⟩

theorem checkIdentKw_none_of :
    ∀ l : List String, (∀ x ∈ l, isPyIdentifier x = true ∧
      pyKeywords.contains x = false) → checkIdentKw l = none := by
  intro l
  induction l with
  | nil => intro _; rfl
  | cons n rest ih =>
    intro h
    unfold checkIdentKw
    rw [if_neg (by simp [(h n (List.mem_cons_self _ _)).1]),
        if_neg (by
          rw [(h n (List.mem_cons_self _ _)).2]
          exact Bool.false_ne_true)]
    exact ih fun x hx => h x (List.mem_cons_of_mem _ hx)

theorem checkFieldSeq_none_of :
    ∀ (l seen : List String), l.Nodup →
      (∀ x ∈ l, startsWithUnderscore x = false) →
      (∀ x ∈ l, x ∉ seen) →
      checkFieldSeq l seen = none := by
  intro l
  induction l with
  | nil => intro seen _ _ _; rfl
  | cons n rest ih =>
    intro seen hnd hus hseen
    unfold checkFieldSeq
    rw [if_neg (by simp [hus n (List.mem_cons_self _ _)]),
        if_neg (fun hc =>
          hseen n (List.mem_cons_self _ _) (List.elem_iff.mp hc))]
    exact ih (n :: seen) (List.nodup_cons.mp hnd).2
      (fun x hx => hus x (List.mem_cons_of_mem _ hx))
      (fun x hx => by
        simp only [List.mem_cons]
        rintro (rfl | h2)
        · exact (List.nodup_cons.mp hnd).1 hx
        · exact hseen x (List.mem_cons_of_mem _ hx) h2)

/-- A whitespace-joined string of identifiers normalizes to exactly the
list of identifiers. -/
theorem normalize_str_join {l : List String} {s : String}
    (hjoin : s.data = List.intercalate [' '] (l.map String.data))
    (hid : ∀ x ∈ l, isPyIdentifier x = true) :
    normalizeFieldNames (.str s) = l := by
  show pyReplaceCommaSplit s = l
  unfold pyReplaceCommaSplit
  rw [hjoin]
  have hcomma : ∀ c ∈ List.intercalate [' '] (l.map String.data), c ≠ ',' := by
    intro c hc
    rcases mem_intercalate_space _ c hc with rfl | ⟨w, hw, hcw⟩
    · decide
    · rcases List.mem_map.mp hw with ⟨x, hx, rfl⟩
      exact ident_char_ne_comma ((ident_chars (hid x hx)).2 c hcw)
  rw [map_comma_id _ hcomma]
  rw [pySplitWsAux_intercalate (l.map String.data)
      (fun w hw => by
        rcases List.mem_map.mp hw with ⟨x, hx, rfl⟩
        exact (ident_chars (hid x hx)).1)
      (fun w hw c hc => by
        rcases List.mem_map.mp hw with ⟨x, hx, rfl⟩
        exact ident_char_not_ws ((ident_chars (hid x hx)).2 c hc))]
  rw [List.map_map]
  have hmk : ((fun cs => String.mk cs) ∘ String.data) = id := funext fun x => rfl
  rw [hmk, List.map_id]

/-- Two `field_names` arguments that normalize alike are
indistinguishable to `namedtuple`. -/
theorem pyNamedtuple_congr {α : Type} (tn : String) {fn1 fn2 : FieldNames}
    (h : normalizeFieldNames fn1 = normalizeFieldNames fn2) :
    pyNamedtuple α tn fn1 = pyNamedtuple α tn fn2 := by
  unfold pyNamedtuple
  rw [h]

/-- `namedtuple` succeeds on a valid name set given as a sequence. -/
theorem pyNamedtuple_seq_ok {α : Type} (tn : String) (l : List String)
    (hid : ∀ x ∈ l, isPyIdentifier x = true)
    (hkw : ∀ x ∈ l, pyKeywords.contains x = false)
    (hus : ∀ x ∈ l, startsWithUnderscore x = false)
    (hnd : l.Nodup)
    (htn1 : isPyIdentifier tn = true)
    (htn2 : pyKeywords.contains tn = false) :
    pyNamedtuple α tn (.seq l) = .ok ⟨tn, l, []⟩ := by
  have h1 : checkIdentKw (tn :: l) = none :=
    checkIdentKw_none_of (tn :: l) (by
      intro x hx
      rcases List.mem_cons.mp hx with rfl | hx'
      · exact ⟨htn1, htn2⟩
      · exact ⟨hid x hx', hkw x hx'⟩)
  have h2 : checkFieldSeq l [] = none :=
    checkFieldSeq_none_of l [] hnd hus (by simp)
  show (match checkIdentKw (tn :: l) with
    | some e => (Except.error e : Except PyErr (NTType α))
    | none =>
      match checkFieldSeq l [] with
      | some e => Except.error e
      | none => Except.ok ⟨tn, l, []⟩) = Except.ok ⟨tn, l, []⟩
  rw [h1, h2]

/-- Once `namedtuple` has produced a type, binding any tuple of
defaults succeeds and stores exactly that tuple. -/
theorem namedtuple_defaults_of_ok {α : Type} {tn : String} {fn : FieldNames}
    {nt0 : NTType α} (ds : List α) (h : pyNamedtuple α tn fn = .ok nt0) :
    namedtuple_defaults tn fn (.tuple ds) = .ok { nt0 with defaults := ds } := by
  rw [namedtuple_defaults_eq_bind, h]
  rfl

/-- `namedtuple_defaults_alloc` unfolded to its bind. -/
theorem namedtuple_defaults_alloc_eq_bind {α : Type} (next : Nat)
    (tn : String) (fn : FieldNames) (dfl : PySeq α) :
    namedtuple_defaults_alloc next tn fn dfl =
      (namedtuple_defaults tn fn dfl).bind
        fun nt => .ok (⟨next, nt⟩, next + 1) := rfl

/-! The claims. -/

/-- C1: for a factory call with valid unique field names and at most as
many defaults as fields, construction supplying all fields, or omitting
any `k ≤ len(defaults)` trailing fields, succeeds; the supplied fields
hold the supplied arguments and the omitted fields hold the last `k`
entries of `defaults` in order (rightmost alignment). -/
theorem C1_trailing_defaults {α : Type} {tn : String} {fn : FieldNames}
    {ds : List α} {nt : NTType α}
    (h : namedtuple_defaults tn fn (PySeq.tuple ds) = .ok nt)
    (hds : ds.length ≤ nt.fields.length)
    (k : Nat) (hk : k ≤ ds.length)
    (args : List α) (hargs : args.length + k = nt.fields.length) :
    construct nt args [] = .ok (args ++ ds.drop (ds.length - k)) := by
  obtain ⟨-, -, hdef, -⟩ := namedtuple_defaults_ok_tuple h
  rw [← hdef] at hk ⊢
  exact construct_positional nt args k hk hargs

/-- Witness for C1: the Location type with one trailing field omitted
takes the last default for it. -/
theorem C1_trailing_defaults_witness :
    construct (⟨"Location", ["x", "y"], [0, 0]⟩ : NTType Int) [5] [] =
      .ok [5, 0] :=
  @C1_trailing_defaults Int "Location" (FieldNames.str "x y") [0, 0]
    ⟨"Location", ["x", "y"], [0, 0]⟩ (by decide) (by decide) 1 (by decide)
    [5] (by decide)

/-- C2 counterexample: with two fields and three defaults the factory
raises no error and returns a type definition, contrary to the claimed
TooManyDefaults failure. -/
theorem C2_counterexample :
    namedtuple_defaults "T" (FieldNames.str "a b")
        (PySeq.tuple ([1, 2, 3] : List Int)) =
      .ok ⟨"T", ["a", "b"], [1, 2, 3]⟩ := by decide

/-- C2 amended: when `len(defaults) > len(field_names)` the factory
does not fail: the oversized defaults tuple is accepted as given, and
construction uses only its last `len(field_names)` entries (rightmost
alignment), so zero-argument construction yields exactly those
entries. -/
theorem C2_amended_oversized_defaults {α : Type} {tn : String}
    {fn : FieldNames} {nt0 : NTType α} (ds : List α)
    (h : pyNamedtuple α tn fn = .ok nt0)
    (hover : nt0.fields.length ≤ ds.length) :
    namedtuple_defaults tn fn (PySeq.tuple ds) =
        .ok { nt0 with defaults := ds } ∧
      construct { nt0 with defaults := ds } [] [] =
        .ok (ds.drop (ds.length - nt0.fields.length)) := by
  refine ⟨namedtuple_defaults_of_ok ds h, ?_⟩
  exact construct_positional _ [] nt0.fields.length hover (by simp)

/-- Witness for C2 amended: two fields, three defaults; the type is
returned and no-argument construction uses the last two defaults. -/
theorem C2_amended_oversized_defaults_witness :
    namedtuple_defaults "T" (FieldNames.str "a b")
        (PySeq.tuple ([7, 8, 9] : List Int)) =
      .ok ⟨"T", ["a", "b"], [7, 8, 9]⟩ ∧
    construct (⟨"T", ["a", "b"], [7, 8, 9]⟩ : NTType Int) [] [] =
      .ok [8, 9] :=
  @C2_amended_oversized_defaults Int "T" (FieldNames.str "a b")
    ⟨"T", ["a", "b"], []⟩ [7, 8, 9] (by decide) (by decide)

/-- C3 counterexample: a Python list as the defaults argument is
rejected with TypeError at the `__defaults__` assignment, contrary to
the claim that any sequence kind is accepted. -/
theorem C3_counterexample :
    namedtuple_defaults "Location" (FieldNames.str "x y")
        (PySeq.list ([0, 0] : List Int)) =
      .error .typeErrorDefaultsNotTuple := by decide

/-- C3 amended: every tuple of values of length between 0 and
`len(field_names)` is accepted as the defaults argument and the type
definition is produced; a non-tuple sequence such as a list is
rejected. -/
theorem C3_amended_tuple_defaults {α : Type} {tn : String} {fn : FieldNames}
    {nt0 : NTType α} (ds : List α)
    (h : pyNamedtuple α tn fn = .ok nt0)
    (hlen : ds.length ≤ nt0.fields.length) :
    namedtuple_defaults tn fn (PySeq.tuple ds) =
      .ok { nt0 with defaults := ds } :=
  namedtuple_defaults_of_ok ds h

/-- Witness for C3 amended: a one-element tuple of defaults on a
two-field type is accepted. -/
theorem C3_amended_tuple_defaults_witness :
    namedtuple_defaults "Location" (FieldNames.str "x y")
        (PySeq.tuple ([0] : List Int)) =
      .ok ⟨"Location", ["x", "y"], [0]⟩ :=
  @C3_amended_tuple_defaults Int "Location" (FieldNames.str "x y")
    ⟨"Location", ["x", "y"], []⟩ [0] (by decide) (by decide)

/-- C4: constructing while omitting a field that has no bound default
and no explicit argument fails with the missing-required-argument
error naming that field, and no instance is produced. -/
theorem C4_missing_required {α : Type} {tn : String} {fn : FieldNames}
    {ds : List α} {nt : NTType α}
    (h : namedtuple_defaults tn fn (PySeq.tuple ds) = .ok nt)
    (args : List α) (kwargs : List (String × α))
    (hkw : ∀ p ∈ kwargs, p.1 ∈ nt.fields)
    (hnd : (kwargs.map Prod.fst).Nodup)
    (hidx : ∀ p ∈ kwargs, args.length ≤ nt.fields.findIdx (fun f => f == p.1))
    (hargs : args.length ≤ nt.fields.length)
    (i : Nat) (hi : i < nt.fields.length)
    (hnodef : i + nt.defaults.length < nt.fields.length)
    (hpos : args.length ≤ i)
    (hnk : ∀ p ∈ kwargs, p.1 ≠ nt.fields.getD i "") :
    construct nt args kwargs =
        .error (.typeErrorMissingRequired (missingNames nt args kwargs)) ∧
      nt.fields.getD i "" ∈ missingNames nt args kwargs := by
  have hfind := find?_unexpected_none nt kwargs hkw
  have hmv := firstMultipleKw_none nt.fields args.length kwargs [] hidx hnd
    (by simp)
  have hnone : fillField nt args kwargs i = none :=
    fillField_eq_none nt args kwargs i hpos
      (fun p hp hc => hnk p hp (beq_iff_eq.mp hc)) hnodef
  have hallf : ((List.range nt.fields.length).map
      (fillField nt args kwargs)).all Option.isSome = false := by
    rw [List.all_eq_false]
    refine ⟨fillField nt args kwargs i, ?_, by rw [hnone]; simp⟩
    exact List.mem_map_of_mem _ (List.mem_range.mpr hi)
  constructor
  · rw [construct_checks_pass nt args kwargs hfind hmv (by omega),
      if_neg (by simp [hallf])]
  · unfold missingNames
    apply List.mem_map_of_mem
    rw [List.mem_filter]
    exact ⟨List.mem_range.mpr hi, by rw [hnone]; rfl⟩

/-- Witness for C4: four fields, defaults bound to the last two only;
constructing with a single positional argument leaves field `b`
missing and raises the missing-required-argument error. -/
theorem C4_missing_required_witness :
    construct (⟨"T3", ["a", "b", "c", "d"], [10, 20]⟩ : NTType Int) [1] [] =
        .error (.typeErrorMissingRequired
          (missingNames (⟨"T3", ["a", "b", "c", "d"], [10, 20]⟩ : NTType Int)
            [1] [])) ∧
      "b" ∈ missingNames
        (⟨"T3", ["a", "b", "c", "d"], [10, 20]⟩ : NTType Int) [1] [] :=
  @C4_missing_required Int "T3" (FieldNames.str "a b c d") [10, 20]
    ⟨"T3", ["a", "b", "c", "d"], [10, 20]⟩ (by decide) [1] []
    (by decide) (by decide) (by decide) (by decide) 1 (by decide) (by decide)
    (by decide) (by decide)

/-- C5: the Location scenario: fields x y with defaults (0, 0); no
arguments give x = 0 and y = 0; the single argument 5 gives x = 5 and
y = 0; the arguments 5 and 9 give x = 5 and y = 9. -/
theorem C5_Location_scenario :
    namedtuple_defaults "Location" (FieldNames.str "x y")
        (PySeq.tuple ([0, 0] : List Int)) =
      .ok ⟨"Location", ["x", "y"], [0, 0]⟩ ∧
    construct (⟨"Location", ["x", "y"], [0, 0]⟩ : NTType Int) [] [] =
      .ok [0, 0] ∧
    getattrByName (⟨"Location", ["x", "y"], [0, 0]⟩ : NTType Int)
      [0, 0] "x" = .ok 0 ∧
    getattrByName (⟨"Location", ["x", "y"], [0, 0]⟩ : NTType Int)
      [0, 0] "y" = .ok 0 ∧
    construct (⟨"Location", ["x", "y"], [0, 0]⟩ : NTType Int) [5] [] =
      .ok [5, 0] ∧
    getattrByName (⟨"Location", ["x", "y"], [0, 0]⟩ : NTType Int)
      [5, 0] "x" = .ok 5 ∧
    getattrByName (⟨"Location", ["x", "y"], [0, 0]⟩ : NTType Int)
      [5, 0] "y" = .ok 0 ∧
    construct (⟨"Location", ["x", "y"], [0, 0]⟩ : NTType Int) [5, 9] [] =
      .ok [5, 9] ∧
    getattrByName (⟨"Location", ["x", "y"], [0, 0]⟩ : NTType Int)
      [5, 9] "x" = .ok 5 ∧
    getattrByName (⟨"Location", ["x", "y"], [0, 0]⟩ : NTType Int)
      [5, 9] "y" = .ok 9 := by decide

/-- C6: a whitespace-delimited string of valid field names and the
corresponding explicit sequence are interchangeable: the factory
returns identical results for both, and on valid unique names it
succeeds with that ordered field list. -/
theorem C6_string_or_sequence {α : Type} (tn : String) (ds : List α)
    (l : List String) (s : String)
    (hjoin : s.data = List.intercalate [' '] (l.map String.data))
    (hid : ∀ x ∈ l, isPyIdentifier x = true)
    (hkw : ∀ x ∈ l, pyKeywords.contains x = false)
    (hus : ∀ x ∈ l, startsWithUnderscore x = false)
    (hnd : l.Nodup)
    (htn1 : isPyIdentifier tn = true)
    (htn2 : pyKeywords.contains tn = false) :
    namedtuple_defaults tn (FieldNames.str s) (PySeq.tuple ds) =
        namedtuple_defaults tn (FieldNames.seq l) (PySeq.tuple ds) ∧
      namedtuple_defaults tn (FieldNames.seq l) (PySeq.tuple ds) =
        .ok ⟨tn, l, ds⟩ := by
  have hnorm : normalizeFieldNames (.str s) = l := normalize_str_join hjoin hid
  have hseq : pyNamedtuple α tn (.seq l) = .ok ⟨tn, l, []⟩ :=
    pyNamedtuple_seq_ok tn l hid hkw hus hnd htn1 htn2
  constructor
  · rw [namedtuple_defaults_eq_bind, namedtuple_defaults_eq_bind]
    have hc : pyNamedtuple α tn (FieldNames.str s) =
        pyNamedtuple α tn (FieldNames.seq l) :=
      pyNamedtuple_congr tn (by rw [hnorm]; rfl)
    rw [hc]
  · rw [namedtuple_defaults_eq_bind, hseq]
    rfl

/-- Witness for C6 at the Location example: the string form and the
list form of the field names produce the same accepted type. -/
theorem C6_string_or_sequence_witness :
    (namedtuple_defaults "Location" (FieldNames.str "x y")
        (PySeq.tuple ([0, 0] : List Int)) =
      namedtuple_defaults "Location" (FieldNames.seq ["x", "y"])
        (PySeq.tuple ([0, 0] : List Int))) ∧
    namedtuple_defaults "Location" (FieldNames.seq ["x", "y"])
        (PySeq.tuple ([0, 0] : List Int)) =
      .ok ⟨"Location", ["x", "y"], [0, 0]⟩ :=
  C6_string_or_sequence "Location" [0, 0] ["x", "y"] "x y" (by decide)
    (by decide) (by decide) (by decide) (by decide) (by decide) (by decide)

/-- C7: reading a field by name from a constructed instance returns
exactly the value bound for that field at construction (the supplied
argument, or the bound default when the field was omitted), and two
instances of the same produced type with pairwise-equal field values
compare equal under tuple equality. -/
theorem C7_access_and_structural_eq {α : Type} [DecidableEq α] {tn : String}
    {fn : FieldNames} {ds : List α} {nt : NTType α}
    (h : namedtuple_defaults tn fn (PySeq.tuple ds) = .ok nt)
    {args1 args2 : List α} {kwargs1 kwargs2 : List (String × α)}
    {i1 i2 : List α}
    (h1 : construct nt args1 kwargs1 = .ok i1)
    (h2 : construct nt args2 kwargs2 = .ok i2) :
    (∀ j (hj : j < nt.fields.length),
      (getattrByName nt i1 (nt.fields.get ⟨j, hj⟩)).toOption =
        fillField nt args1 kwargs1 j) ∧
    ((∀ j (hj1 : j < i1.length) (hj2 : j < i2.length),
        i1.get ⟨j, hj1⟩ = i2.get ⟨j, hj2⟩) →
      tupleEq i1 i2 = true) := by
  have hndp := factory_fields_nodup h
  have hlen1 := construct_ok_length h1
  have hlen2 := construct_ok_length h2
  constructor
  · intro j hj
    rw [getattrByName_get hndp hlen1 hj]
    have hje := construct_ok_getElem h1 hj
    rw [List.getElem?_eq_getElem (by omega)] at hje
    rw [← hje]
    rfl
  · intro heq
    rw [tupleEq_eq_true_iff]
    apply List.ext_get (by omega)
    intro j hj1 hj2
    exact heq j hj1 hj2

/-- Witness for C7: on the Location type, reading `x` from the
instance built from arguments 5 and 9 matches the bound value, and the
instance built positionally equals the one built by keywords. -/
theorem C7_access_and_structural_eq_witness :
    (getattrByName (⟨"Location", ["x", "y"], [0, 0]⟩ : NTType Int) [5, 9]
        "x").toOption =
      fillField (⟨"Location", ["x", "y"], [0, 0]⟩ : NTType Int) [5, 9] [] 0 ∧
    tupleEq ([5, 9] : List Int) [5, 9] = true :=
  ⟨(@C7_access_and_structural_eq Int _ "Location" (FieldNames.str "x y")
      [0, 0] ⟨"Location", ["x", "y"], [0, 0]⟩ (by decide) [5, 9] [] []
      [("x", 5), ("y", 9)] [5, 9] [5, 9] (by decide) (by decide)).1 0
      (by decide),
    (@C7_access_and_structural_eq Int _ "Location" (FieldNames.str "x y")
      [0, 0] ⟨"Location", ["x", "y"], [0, 0]⟩ (by decide) [5, 9] [] []
      [("x", 5), ("y", 9)] [5, 9] [5, 9] (by decide) (by decide)).2
      fun j hj1 hj2 => rfl⟩

/-- C8: two successive factory invocations with identical arguments
return two distinct type objects (different addresses, no caching or
memoization), each independently usable with identical behavior. -/
theorem C8_distinct_type_objects {α : Type} {next : Nat} {tn : String}
    {fn : FieldNames} {dfl : PySeq α} {t1 t2 : NTTypeObj α} {n1 n2 : Nat}
    (h1 : namedtuple_defaults_alloc next tn fn dfl = .ok (t1, n1))
    (h2 : namedtuple_defaults_alloc n1 tn fn dfl = .ok (t2, n2)) :
    t1.addr ≠ t2.addr ∧ t1.ty = t2.ty := by
  rw [namedtuple_defaults_alloc_eq_bind] at h1 h2
  cases hf : namedtuple_defaults tn fn dfl with
  | error e =>
    rw [hf] at h1
    exact absurd h1 (by simp [Except.bind])
  | ok nt =>
    rw [hf] at h1 h2
    have h1' : ((⟨next, nt⟩ : NTTypeObj α), next + 1) = (t1, n1) :=
      Except.ok.inj h1
    have h2' : ((⟨n1, nt⟩ : NTTypeObj α), n1 + 1) = (t2, n2) :=
      Except.ok.inj h2
    injection h1' with ha hb
    injection h2' with hc hd
    subst ha hb hc hd
    refine ⟨?_, rfl⟩
    show next ≠ next + 1
    omega

/-- Witness for C8: allocating the Location type twice from address 0
gives type objects at addresses 0 and 1 with the same behavior. -/
theorem C8_distinct_type_objects_witness :
    (⟨0, ⟨"Location", ["x", "y"], [0, 0]⟩⟩ : NTTypeObj Int).addr ≠
        (⟨1, ⟨"Location", ["x", "y"], [0, 0]⟩⟩ : NTTypeObj Int).addr ∧
      (⟨0, ⟨"Location", ["x", "y"], [0, 0]⟩⟩ : NTTypeObj Int).ty =
        (⟨1, ⟨"Location", ["x", "y"], [0, 0]⟩⟩ : NTTypeObj Int).ty :=
  @C8_distinct_type_objects Int 0 "Location" (FieldNames.str "x y")
    (PySeq.tuple [0, 0]) ⟨0, ⟨"Location", ["x", "y"], [0, 0]⟩⟩
    ⟨1, ⟨"Location", ["x", "y"], [0, 0]⟩⟩ 1 2 (by decide) (by decide)

/-- C9: a constructed instance is immutable: it holds exactly one
fixed value per declared field (fixed field set and order), and every
attribute assignment on it fails with AttributeError, producing no
modified instance; the embedding is pure, so the returned type
definition is never mutated after the factory returns. -/
theorem C9_immutable_instances {α : Type} {nt : NTType α} {args : List α}
    {kwargs : List (String × α)} {inst : List α}
    (h : construct nt args kwargs = .ok inst) :
    inst.length = nt.fields.length ∧
      ∀ f v, setattrByName nt inst f v = .error .attributeErrorSet :=
  ⟨construct_ok_length h, fun f v => rfl⟩

/-- Witness for C9 on a Location instance. -/
theorem C9_immutable_instances_witness :
    ([5, 0] : List Int).length =
        (⟨"Location", ["x", "y"], [0, 0]⟩ : NTType Int).fields.length ∧
      ∀ f v, setattrByName (⟨"Location", ["x", "y"], [0, 0]⟩ : NTType Int)
        [5, 0] f v = .error .attributeErrorSet :=
  @C9_immutable_instances Int ⟨"Location", ["x", "y"], [0, 0]⟩ [5] []
    [5, 0] (by decide)

/-- C10: keyword construction may omit a defaulted field even when a
field declared after it is supplied: with distinct keyword names all
naming fields and every unnamed field covered by a default,
construction succeeds, each keyword-supplied field holds its keyword
value and each omitted field holds its right-aligned default. -/
theorem C10_kwarg_skips_defaulted {α : Type} {tn : String} {fn : FieldNames}
    {ds : List α} {nt : NTType α}
    (h : namedtuple_defaults tn fn (PySeq.tuple ds) = .ok nt)
    (kwargs : List (String × α))
    (hkeys : ∀ p ∈ kwargs, p.1 ∈ nt.fields)
    (hnd : (kwargs.map Prod.fst).Nodup)
    (hcov : ∀ j, j < nt.fields.length →
      lookupKw kwargs (nt.fields.getD j "") = none →
      nt.fields.length ≤ j + nt.defaults.length) :
    ∃ inst, construct nt [] kwargs = .ok inst ∧
      inst.length = nt.fields.length ∧
      ∀ j, j < nt.fields.length →
        (∀ v, lookupKw kwargs (nt.fields.getD j "") = some v →
            inst[j]? = some v) ∧
          (lookupKw kwargs (nt.fields.getD j "") = none →
            inst[j]? =
              nt.defaults[j + nt.defaults.length - nt.fields.length]?) := by
  have hfind := find?_unexpected_none nt kwargs hkeys
  have hmv := firstMultipleKw_none nt.fields 0 kwargs []
    (fun p _ => Nat.zero_le _) hnd (by simp)
  have hall : ((List.range nt.fields.length).map
      (fillField nt [] kwargs)).all Option.isSome = true := by
    rw [List.all_eq_true]
    intro x hx
    rcases List.mem_map.mp hx with ⟨j, hj, rfl⟩
    rw [List.mem_range] at hj
    rw [fillField_no_args]
    cases hlk : lookupKw kwargs (nt.fields.getD j "") with
    | some v => rfl
    | none =>
      rw [if_pos (hcov j hj hlk)]
      rw [List.getElem?_eq_getElem (by have := hcov j hj hlk; omega)]
      rfl
  have hco : construct nt [] kwargs =
      .ok (((List.range nt.fields.length).map
        (fillField nt [] kwargs)).reduceOption) := by
    rw [construct_checks_pass nt [] kwargs hfind
      (by simpa using hmv) (by simp), if_pos hall]
  refine ⟨_, hco, construct_ok_length hco, ?_⟩
  intro j hj
  have hje := construct_ok_getElem hco hj
  rw [fillField_no_args] at hje
  constructor
  · intro v hv
    rw [hje, hv]
  · intro hnone
    rw [hje, hnone]
    rw [if_pos (hcov j hj hnone)]

/-- Witness for C10: Location built with defaults (0, 0) and
constructed with only the keyword `y = 9` succeeds, with `x` taking
its default 0 and `y` taking 9. -/
theorem C10_kwarg_skips_defaulted_witness :
    ∃ inst : List Int,
      construct (⟨"Location", ["x", "y"], [0, 0]⟩ : NTType Int) []
          [("y", 9)] = .ok inst ∧
        inst.length =
          (⟨"Location", ["x", "y"], [0, 0]⟩ : NTType Int).fields.length ∧
        ∀ j, j < (⟨"Location", ["x", "y"], [0, 0]⟩ : NTType Int).fields.length →
          (∀ v, lookupKw [(("y" : String), (9 : Int))]
              ((⟨"Location", ["x", "y"], [0, 0]⟩ : NTType Int).fields.getD j "") =
                some v → inst[j]? = some v) ∧
            (lookupKw [(("y" : String), (9 : Int))]
              ((⟨"Location", ["x", "y"], [0, 0]⟩ : NTType Int).fields.getD j "") =
                none →
              inst[j]? =
                (⟨"Location", ["x", "y"], [0, 0]⟩ : NTType Int).defaults[j + 2 - 2]?) :=
  @C10_kwarg_skips_defaulted Int "Location" (FieldNames.str "x y") [0, 0]
    ⟨"Location", ["x", "y"], [0, 0]⟩ (by decide) [("y", 9)] (by decide)
    (by decide) (by decide)

end NTDefaults

